import Mathlib

/-!
Shallow embedding of the clicker game engine of `src/main.rs`.

Rust `f64` arithmetic is modelled exactly over `ℚ`; `u64` over `Nat`.
The Rust cast `f64 as u64` (truncation toward zero, saturating at 0 for
negative values) is modelled as `Int.toNat ∘ Int.floor`, which agrees
with it on every rational below `2^64`.  The `HashMap<String, Building>`
of buildings is modelled as an association list whose list order stands
for the map's (unspecified) iteration order.  The line-oriented save
file is modelled at the record level: each `SaveLine` constructor is one
successfully tokenized line shape, `SaveLine.junk` stands for any
malformed or unknown line (skipped by the loader exactly as the Rust
parser skips it).
-/

structure Building where
  name : String
  description : String
  base_cost : Nat
  base_production : ℚ
  count : Nat
  cost_multiplier : ℚ
deriving DecidableEq

def Building.new (name description : String) (base_cost : Nat)
    (base_production : ℚ) (cost_multiplier : ℚ) : Building :=
  { name := name, description := description, base_cost := base_cost,
    base_production := base_production, count := 0,
    cost_multiplier := cost_multiplier }

def Building.current_cost (b : Building) : Nat :=
  if b.count = 0 then b.base_cost
  else (Int.floor ((b.base_cost : ℚ) * b.cost_multiplier ^ b.count)).toNat

def Building.total_production (b : Building) : ℚ :=
  b.base_production * (b.count : ℚ)

def Building.buy (b : Building) : Nat × Building :=
  (b.current_cost, { b with count := b.count + 1 })

structure Upgrade where
  name : String
  description : String
  cost : Nat
  purchased : Bool
  building_multiplier : Option (String × ℚ)
  click_multiplier : Option ℚ
deriving DecidableEq

def Upgrade.new (name description : String) (cost : Nat)
    (building_multiplier : Option (String × ℚ))
    (click_multiplier : Option ℚ) : Upgrade :=
  { name := name, description := description, cost := cost,
    purchased := false, building_multiplier := building_multiplier,
    click_multiplier := click_multiplier }

inductive Menu where
  | main
  | buildings
  | upgrades
deriving DecidableEq

structure GameState where
  points : Nat
  lifetime_points : Nat
  click_power : Nat
  buildings : List (String × Building)
  upgrades : List Upgrade
  current_menu : Menu
  selected_index : Nat
  production_remainder : ℚ
deriving DecidableEq

def GameState.new : GameState :=
  { points := 0, lifetime_points := 0, click_power := 1,
    buildings :=
      [ ("cursor", Building.new "Cultist" "Whispers eldritch secrets" 15 0.1 1.15),
        ("grandma", Building.new "Elder One" "Ancient being from beyond" 100 1.0 1.15),
        ("farm", Building.new "Ritual Site" "Conducts forbidden ceremonies" 1100 8.0 1.15),
        ("mine", Building.new "Deep One Colony" "Underwater servants of Cthulhu" 12000 47.0 1.15),
        ("temple", Building.new "Temple of Dagon" "Ancient place of worship" 130000 260.0 1.15),
        ("portal", Building.new "Dimensional Portal" "Gateway to Rlyeh" 1400000 1400.0 1.15) ],
    upgrades :=
      [ Upgrade.new "Necronomicon Pages" "Cultists are twice as efficient"
          100 (some ("cursor", 2.0)) none,
        Upgrade.new "Eldritch Incantation" "Your influence is twice as powerful"
          500 none (some 2.0),
        Upgrade.new "Ancient Artifacts" "Elder Ones are twice as efficient"
          1000 (some ("grandma", 2.0)) none,
        Upgrade.new "Blood Sacrifice" "Ritual Sites are twice as efficient"
          11000 (some ("farm", 2.0)) none,
        Upgrade.new "Esoteric Geometry" "Deep One Colonies are twice as efficient"
          120000 (some ("mine", 2.0)) none,
        Upgrade.new "Non-Euclidean Architecture" "Temples of Dagon are twice as efficient"
          1300000 (some ("temple", 2.0)) none,
        Upgrade.new "The Stars Are Right" "All minions are twice as efficient"
          10000000 (some ("all", 2.0)) (some 5.0) ],
    current_menu := Menu.main, selected_index := 0,
    production_remainder := 0 }

def GameState.calculate_production_per_second (s : GameState) : ℚ :=
  let all_buildings_multiplier := s.upgrades.foldl
    (fun acc u =>
      if u.purchased then
        match u.building_multiplier with
        | some km => if km.1 = "all" then acc * km.2 else acc
        | none => acc
      else acc) 1
  s.buildings.foldl
    (fun total kb =>
      let multiplier := s.upgrades.foldl
        (fun acc u =>
          if u.purchased then
            match u.building_multiplier with
            | some km => if km.1 = kb.1 then acc * km.2 else acc
            | none => acc
          else acc) all_buildings_multiplier
      total + kb.2.total_production * multiplier) 0

def clickPowerFor (lifetime_points : Nat) : Nat :=
  if lifetime_points ≤ 999 then 1
  else if lifetime_points ≤ 9999 then 2
  else if lifetime_points ≤ 99999 then 5
  else if lifetime_points ≤ 999999 then 10
  else if lifetime_points ≤ 9999999 then 25
  else if lifetime_points ≤ 99999999 then 50
  else 100

def GameState.check_click_power_upgrade (s : GameState) : GameState :=
  let new_click_power := clickPowerFor s.lifetime_points
  if s.click_power < new_click_power then
    { s with click_power := new_click_power }
  else s

def GameState.click (s : GameState) : GameState :=
  let click_multiplier := s.upgrades.foldl
    (fun acc u =>
      if u.purchased then
        match u.click_multiplier with
        | some m => acc * m
        | none => acc
      else acc) 1
  let points_to_add := (Int.floor ((s.click_power : ℚ) * click_multiplier)).toNat
  GameState.check_click_power_upgrade
    { s with points := s.points + points_to_add,
             lifetime_points := s.lifetime_points + points_to_add }

def lookupB : List (String × Building) → String → Option Building
  | [], _ => none
  | kb :: rest, key => if kb.1 = key then some kb.2 else lookupB rest key

def updateB : List (String × Building) → String → (Building → Building) →
    List (String × Building)
  | [], _, _ => []
  | kb :: rest, key, f =>
      (if kb.1 = key then (kb.1, f kb.2) else kb) :: updateB rest key f

def GameState.buy_building (s : GameState) (key : String) : GameState × Bool :=
  match lookupB s.buildings key with
  | some building =>
    let cost := building.current_cost
    if cost ≤ s.points then
      ({ s with points := s.points - cost,
                buildings := updateB s.buildings key fun b => (b.buy).2 }, true)
    else (s, false)
  | none => (s, false)

def GameState.buy_upgrade (s : GameState) (index : Nat) : GameState × Bool :=
  match s.upgrades[index]? with
  | some u =>
    if u.purchased = false ∧ u.cost ≤ s.points then
      ({ s with points := s.points - u.cost,
                upgrades := s.upgrades.set index { u with purchased := true } }, true)
    else (s, false)
  | none => (s, false)

def GameState.applyProductionTick (s : GameState) (elapsed : ℚ) : GameState :=
  let production := s.calculate_production_per_second * elapsed
  let remainder := s.production_remainder + production
  let points_to_add := (Int.floor remainder).toNat
  if 0 < points_to_add then
    { s with production_remainder := remainder - (points_to_add : ℚ),
             points := s.points + points_to_add,
             lifetime_points := s.lifetime_points + points_to_add }
  else
    { s with production_remainder := remainder }

inductive SaveLine where
  | points (v : Nat)
  | lifetime (v : Nat)
  | click_power (v : Nat)
  | building (key : String) (count : Nat) (base_production : ℚ)
  | upgrade (index : Nat) (purchased : Bool)
  | junk
deriving DecidableEq

def buildingLines : List (String × Building) → List SaveLine
  | [] => []
  | kb :: rest => SaveLine.building kb.1 kb.2.count kb.2.base_production :: buildingLines rest

def upgradeLines : Nat → List Upgrade → List SaveLine
  | _, [] => []
  | i, u :: rest => SaveLine.upgrade i u.purchased :: upgradeLines (i + 1) rest

def GameState.save_game (s : GameState) : List SaveLine :=
  SaveLine.points s.points :: SaveLine.lifetime s.lifetime_points ::
    SaveLine.click_power s.click_power ::
      (buildingLines s.buildings ++ upgradeLines 0 s.upgrades)

def setPurchased : List Upgrade → Nat → Bool → List Upgrade
  | [], _, _ => []
  | u :: rest, 0, p => { u with purchased := p } :: rest
  | u :: rest, n + 1, p => u :: setPurchased rest n p

def applyLine (s : GameState) : SaveLine → GameState
  | SaveLine.points v => { s with points := v }
  | SaveLine.lifetime v => { s with lifetime_points := v }
  | SaveLine.click_power v => { s with click_power := v }
  | SaveLine.building key cnt _ =>
      { s with buildings := updateB s.buildings key fun b => { b with count := cnt } }
  | SaveLine.upgrade index p =>
      if index < s.upgrades.length then
        { s with upgrades := setPurchased s.upgrades index p }
      else s
  | SaveLine.junk => s

def GameState.load_game (s : GameState) (file : List SaveLine) : GameState :=
  (file.foldl applyLine { s with production_remainder := 0 }).check_click_power_upgrade

def insertByCost (x : String × Nat) : List (String × Nat) → List (String × Nat)
  | [] => [x]
  | y :: rest => if x.2 ≤ y.2 then x :: y :: rest else y :: insertByCost x rest

def sortByCost : List (String × Nat) → List (String × Nat)
  | [] => []
  | x :: rest => insertByCost x (sortByCost rest)

def GameState.buildingEntries (s : GameState) : List (String × Nat) :=
  s.buildings.map fun kb => (kb.1, kb.2.current_cost)

def GameState.sortedBuildingEntries (s : GameState) : List (String × Nat) :=
  sortByCost s.buildingEntries

def GameState.activateSelection (s : GameState) : GameState :=
  match s.current_menu with
  | Menu.buildings =>
      match s.sortedBuildingEntries[s.selected_index]? with
      | some entry => (s.buy_building entry.1).1
      | none => s
  | Menu.upgrades => (s.buy_upgrade s.selected_index).1
  | Menu.main => s

/-! Specification-side definitions, written from the wording of the spec
    (`currentCost`, `productionPerSecond`) for the refinement claims. -/

def currentCostSpec (b : Building) : ℤ :=
  if b.count = 0 then (b.base_cost : ℤ)
  else Int.floor ((b.base_cost : ℚ) * b.cost_multiplier ^ b.count)

def targetsKey (key : String) (u : Upgrade) : Bool :=
  u.purchased &&
    match u.building_multiplier with
    | some km => decide (km.1 = key)
    | none => false

def upgradeFactor (u : Upgrade) : ℚ :=
  match u.building_multiplier with
  | some km => km.2
  | none => 1

def allMultSpec (s : GameState) : ℚ :=
  ((s.upgrades.filter (targetsKey "all")).map upgradeFactor).prod

def buildingMultSpec (s : GameState) (key : String) : ℚ :=
  allMultSpec s * ((s.upgrades.filter (targetsKey key)).map upgradeFactor).prod

def ppsSpec (s : GameState) : ℚ :=
  (s.buildings.map fun kb => kb.2.total_production * buildingMultSpec s kb.1).sum

/-! Pure list-level companions of the loader's fold, used to factor the
    round-trip proofs. -/

def applyCounts : List (String × Building) → List (String × Building) → List (String × Building)
  | tgt, [] => tgt
  | tgt, kb :: rest =>
      applyCounts (updateB tgt kb.1 fun b => { b with count := kb.2.count }) rest

def applyFlags : List Upgrade → Nat → List Upgrade → List Upgrade
  | tgt, _, [] => tgt
  | tgt, n, u :: rest =>
      applyFlags (if n < tgt.length then setPurchased tgt n u.purchased else tgt) (n + 1) rest

def zipFlags : List Upgrade → List Upgrade → List Upgrade
  | [], _ => []
  | _, [] => []
  | u :: src, v :: tgt => { v with purchased := u.purchased } :: zipFlags src tgt

/-! Concrete states used by witnesses and counterexamples. -/

def oneCultist : Building :=
  { name := "Cultist", description := "d", base_cost := 15, base_production := 1,
    count := 1, cost_multiplier := 23/20 }

def tickCounterState : GameState :=
  { points := 0, lifetime_points := 999, click_power := 1,
    buildings := [("cursor", oneCultist)], upgrades := [],
    current_menu := Menu.main, selected_index := 0, production_remainder := 0 }

def tickWitnessState : GameState :=
  { points := 0, lifetime_points := 0, click_power := 1,
    buildings := [("cursor", oneCultist)], upgrades := [],
    current_menu := Menu.main, selected_index := 0, production_remainder := 0 }

def buyWitnessState : GameState :=
  { GameState.new with points := 20 }

def upgradeWitnessState : GameState :=
  { GameState.new with points := 100 }

def tieBuildingA : Building :=
  { name := "A", description := "d", base_cost := 10, base_production := 1,
    count := 0, cost_multiplier := 23/20 }

def tieBuildingB : Building :=
  { name := "B", description := "d", base_cost := 10, base_production := 1,
    count := 0, cost_multiplier := 23/20 }

def tieState : GameState :=
  { points := 10, lifetime_points := 10, click_power := 1,
    buildings := [("b", tieBuildingB), ("a", tieBuildingA)], upgrades := [],
    current_menu := Menu.buildings, selected_index := 0, production_remainder := 0 }

def tieStatePerm : GameState :=
  { points := 10, lifetime_points := 10, click_power := 1,
    buildings := [("a", tieBuildingA), ("b", tieBuildingB)], upgrades := [],
    current_menu := Menu.buildings, selected_index := 0, production_remainder := 0 }

def reversedCatalogState : GameState :=
  { GameState.new with
      buildings := GameState.new.buildings.reverse,
      upgrades := GameState.new.upgrades.reverse }

def roundTripState : GameState :=
  { GameState.new with
      points := 7, lifetime_points := 4242,
      buildings := updateB GameState.new.buildings "cursor" fun b => { b with count := 3 },
      upgrades := setPurchased GameState.new.upgrades 0 true }

/-! Helper lemmas. -/

theorem check_click_power_fields (s : GameState) :
    (s.check_click_power_upgrade).points = s.points ∧
    (s.check_click_power_upgrade).lifetime_points = s.lifetime_points ∧
    (s.check_click_power_upgrade).buildings = s.buildings ∧
    (s.check_click_power_upgrade).upgrades = s.upgrades ∧
    (s.check_click_power_upgrade).current_menu = s.current_menu ∧
    (s.check_click_power_upgrade).selected_index = s.selected_index ∧
    (s.check_click_power_upgrade).production_remainder = s.production_remainder ∧
    s.click_power ≤ (s.check_click_power_upgrade).click_power := by
  by_cases h : s.click_power < clickPowerFor s.lifetime_points
  · simp [GameState.check_click_power_upgrade, h, Nat.le_of_lt h]
  · simp [GameState.check_click_power_upgrade, h]

theorem applyLine_menu_frame (s : GameState) (l : SaveLine) :
    (applyLine s l).current_menu = s.current_menu ∧
    (applyLine s l).selected_index = s.selected_index := by
  cases l <;> try exact ⟨rfl, rfl⟩
  simp only [applyLine]
  split <;> exact ⟨rfl, rfl⟩

theorem foldl_applyLine_menu_frame (file : List SaveLine) :
    ∀ s : GameState,
      ((file.foldl applyLine s).current_menu = s.current_menu ∧
       (file.foldl applyLine s).selected_index = s.selected_index) := by
  induction file with
  | nil => intro s; exact ⟨rfl, rfl⟩
  | cons l rest ih =>
    intro s
    have h := applyLine_menu_frame s l
    have h2 := ih (applyLine s l)
    exact ⟨h2.1.trans h.1, h2.2.trans h.2⟩

theorem buy_building_menu_frame (s : GameState) (k : String) :
    (s.buy_building k).1.current_menu = s.current_menu ∧
    (s.buy_building k).1.selected_index = s.selected_index := by
  cases hl : lookupB s.buildings k
  · simp [GameState.buy_building, hl]
  · rename_i b
    by_cases hc : b.current_cost ≤ s.points <;>
      simp [GameState.buy_building, hl, hc]

theorem buy_upgrade_menu_frame (s : GameState) (i : Nat) :
    (s.buy_upgrade i).1.current_menu = s.current_menu ∧
    (s.buy_upgrade i).1.selected_index = s.selected_index := by
  cases hl : s.upgrades[i]?
  · simp [GameState.buy_upgrade, hl]
  · rename_i u
    by_cases hc : u.purchased = false ∧ u.cost ≤ s.points <;>
      simp [GameState.buy_upgrade, hl, hc]

/-- C10: the economy and persistence operations — click, production tick,
buy_building, buy_upgrade and load_game — leave the UI fields
current_menu and selected_index unchanged; only the menu-selection and
navigation key handlers modify them. -/
theorem economy_ops_preserve_ui_fields (s : GameState) (t : ℚ) (k : String)
    (i : Nat) (file : List SaveLine) :
    (s.click.current_menu = s.current_menu ∧
     s.click.selected_index = s.selected_index) ∧
    ((s.applyProductionTick t).current_menu = s.current_menu ∧
     (s.applyProductionTick t).selected_index = s.selected_index) ∧
    ((s.buy_building k).1.current_menu = s.current_menu ∧
     (s.buy_building k).1.selected_index = s.selected_index) ∧
    ((s.buy_upgrade i).1.current_menu = s.current_menu ∧
     (s.buy_upgrade i).1.selected_index = s.selected_index) ∧
    ((s.load_game file).current_menu = s.current_menu ∧
     (s.load_game file).selected_index = s.selected_index) := by
  refine ⟨⟨?_, ?_⟩, ⟨?_, ?_⟩, buy_building_menu_frame s k, buy_upgrade_menu_frame s i, ?_, ?_⟩
  · exact (check_click_power_fields _).2.2.2.2.1
  · exact (check_click_power_fields _).2.2.2.2.2.1
  · simp only [GameState.applyProductionTick]
    by_cases h : 0 < (Int.floor (s.production_remainder +
        s.calculate_production_per_second * t)).toNat <;> simp [h]
  · simp only [GameState.applyProductionTick]
    by_cases h : 0 < (Int.floor (s.production_remainder +
        s.calculate_production_per_second * t)).toNat <;> simp [h]
  · unfold GameState.load_game
    rw [(check_click_power_fields _).2.2.2.2.1]
    exact (foldl_applyLine_menu_frame file _).1
  · unfold GameState.load_game
    rw [(check_click_power_fields _).2.2.2.2.2.1]
    exact (foldl_applyLine_menu_frame file _).2

/-- C3 (amended): the production tick never changes click_power; the
click-power progression is not reapplied by the tick (it is reapplied
only by click and load_game). -/
theorem production_tick_click_power_unchanged (s : GameState) (t : ℚ) :
    (s.applyProductionTick t).click_power = s.click_power := by
  simp only [GameState.applyProductionTick]
  by_cases h : 0 < (Int.floor (s.production_remainder +
      s.calculate_production_per_second * t)).toNat <;> simp [h]

theorem tickCounterState_pps : tickCounterState.calculate_production_per_second = 1 := by
  simp [tickCounterState, oneCultist, GameState.calculate_production_per_second,
    Building.total_production]

/-- C3 (counterexample): a production tick that raises lifetime_points
across the 1000 threshold leaves click_power at 1, not the band value 2
for the new lifetime_points — the tick thread never calls
check_click_power_upgrade. -/
theorem production_tick_no_progression_counterexample :
    (tickCounterState.applyProductionTick 1).lifetime_points = 1000 ∧
    tickCounterState.lifetime_points = 999 ∧
    clickPowerFor 1000 = 2 ∧
    (tickCounterState.applyProductionTick 1).click_power = 1 ∧
    (tickCounterState.applyProductionTick 1).click_power ≠ clickPowerFor 1000 := by
  have h1 : tickCounterState.production_remainder +
      tickCounterState.calculate_production_per_second * 1 = 1 := by
    rw [tickCounterState_pps]; norm_num [tickCounterState]
  simp only [GameState.applyProductionTick, h1]
  norm_num [tickCounterState, clickPowerFor]

theorem lookupB_updateB_self (l : List (String × Building)) (key : String)
    (f : Building → Building) :
    lookupB (updateB l key f) key = (lookupB l key).map f := by
  induction l with
  | nil => rfl
  | cons kb rest ih =>
    by_cases h : kb.1 = key
    · simp [updateB, lookupB, h]
    · simp [updateB, lookupB, h, ih]

theorem lookupB_updateB_other (l : List (String × Building)) (key k2 : String)
    (f : Building → Building) (h : k2 ≠ key) :
    lookupB (updateB l key f) k2 = lookupB l k2 := by
  induction l with
  | nil => rfl
  | cons kb rest ih =>
    by_cases hk : kb.1 = key
    · have hne : ¬ (key = k2) := fun hh => h hh.symm
      simp [updateB, lookupB, hk, hne, ih]
    · by_cases h2 : kb.1 = k2 <;> simp [updateB, lookupB, hk, h2, h, ih]

/-- C6: current_cost equals the reference formula: base_cost when the
count is 0, otherwise the floor (truncation toward zero, the values
being nonnegative) of base_cost times cost_multiplier to the power
count; concretely, base 15 and multiplier 1.15 give cost 17 after one
purchase. -/
theorem current_cost_matches_reference :
    (∀ b : Building, 0 ≤ b.cost_multiplier →
      (b.current_cost : ℤ) = currentCostSpec b) ∧
    ({ Building.new "Cultist" "Whispers eldritch secrets" 15 0.1 1.15 with
        count := 1 }).current_cost = 17 := by
  constructor
  · intro b h
    unfold Building.current_cost currentCostSpec
    by_cases hc : b.count = 0
    · simp [hc]
    · simp only [hc, if_false]
      rw [Int.toNat_of_nonneg]
      exact Int.floor_nonneg.mpr (mul_nonneg (by positivity) (pow_nonneg h _))
  · have h17 : Int.floor ((15 : ℚ) * 1.15) = 17 := by
      rw [Int.floor_eq_iff] <;> norm_num
    simp [Building.current_cost, Building.new, h17]

/-- C6 witness: the general part of the reference-formula theorem
instantiated at a concrete building with count 1 and multiplier 23/20. -/
theorem current_cost_matches_reference_witness :
    (0 : ℚ) ≤ oneCultist.cost_multiplier ∧
    (oneCultist.current_cost : ℤ) = currentCostSpec oneCultist := by
  have h : (0 : ℚ) ≤ oneCultist.cost_multiplier := by norm_num [oneCultist]
  exact ⟨h, current_cost_matches_reference.1 oneCultist h⟩

/-- C5: buy_building never succeeds when the key is unknown or points are
below the current cost; on success it deducts the pre-purchase cost,
increments that building's count by one, and changes no other
building. -/
theorem buy_building_contract (s : GameState) (key : String) :
    (lookupB s.buildings key = none → s.buy_building key = (s, false)) ∧
    (∀ b : Building, lookupB s.buildings key = some b →
      (s.points < b.current_cost → s.buy_building key = (s, false)) ∧
      (b.current_cost ≤ s.points →
        (s.buy_building key).2 = true ∧
        (s.buy_building key).1.points = s.points - b.current_cost ∧
        lookupB (s.buy_building key).1.buildings key =
          some { b with count := b.count + 1 } ∧
        ∀ k2, k2 ≠ key →
          lookupB (s.buy_building key).1.buildings k2 = lookupB s.buildings k2)) := by
  constructor
  · intro h
    simp [GameState.buy_building, h]
  · intro b hb
    constructor
    · intro hlt
      have hn : ¬ (b.current_cost ≤ s.points) := Nat.not_le.mpr hlt
      simp [GameState.buy_building, hb, hn]
    · intro hle
      have hbb : s.buy_building key =
          ({ s with points := s.points - b.current_cost,
                    buildings := updateB s.buildings key fun x => (x.buy).2 }, true) := by
        simp [GameState.buy_building, hb, hle]
      rw [hbb]
      refine ⟨rfl, rfl, ?_, ?_⟩
      · show lookupB (updateB s.buildings key fun x => (x.buy).2) key = _
        rw [lookupB_updateB_self, hb]
        rfl
      · intro k2 hk2
        exact lookupB_updateB_other s.buildings key k2 _ hk2

/-- C5 witness: buying the cursor building from the fresh catalog with 20
points succeeds, costs 15, and leaves the grandma building untouched. -/
theorem buy_building_contract_witness :
    (buyWitnessState.buy_building "cursor").2 = true ∧
    (buyWitnessState.buy_building "cursor").1.points = 5 ∧
    lookupB (buyWitnessState.buy_building "cursor").1.buildings "grandma" =
      lookupB buyWitnessState.buildings "grandma" := by
  have hb : lookupB buyWitnessState.buildings "cursor" =
      some (Building.new "Cultist" "Whispers eldritch secrets" 15 0.1 1.15) := rfl
  have h := (buy_building_contract buyWitnessState "cursor").2 _ hb
  have hle : (Building.new "Cultist" "Whispers eldritch secrets" 15 0.1 1.15).current_cost ≤
      buyWitnessState.points := by
    show (15 : Nat) ≤ 20
    decide
  obtain ⟨h1, h2, _h3, h4⟩ := h.2 hle
  refine ⟨h1, ?_, h4 "grandma" (by decide)⟩
  rw [h2]
  rfl

/-- C8: buy_upgrade fails and leaves the state unchanged when the index
is out of range, the upgrade is already purchased, or points are below
the cost; otherwise it deducts the cost and sets the purchased flag, and
a second call on the now-purchased upgrade fails and changes nothing. -/
theorem buy_upgrade_contract (s : GameState) (i : Nat) :
    (s.upgrades[i]? = none → s.buy_upgrade i = (s, false)) ∧
    (∀ u : Upgrade, s.upgrades[i]? = some u →
      ((u.purchased = true ∨ s.points < u.cost) → s.buy_upgrade i = (s, false)) ∧
      (u.purchased = false → u.cost ≤ s.points →
        (s.buy_upgrade i).2 = true ∧
        (s.buy_upgrade i).1.points = s.points - u.cost ∧
        (s.buy_upgrade i).1.upgrades = s.upgrades.set i { u with purchased := true } ∧
        (s.buy_upgrade i).1.buy_upgrade i = ((s.buy_upgrade i).1, false))) := by
  constructor
  · intro h
    simp [GameState.buy_upgrade, h]
  · intro u hu
    constructor
    · intro hfail
      have hn : ¬ (u.purchased = false ∧ u.cost ≤ s.points) := by
        rcases hfail with h1 | h1
        · exact fun hc => by rw [h1] at hc; exact (by simp at hc : False)
        · exact fun hc => Nat.not_le.mpr h1 hc.2
      simp [GameState.buy_upgrade, hu, hn]
    · intro hp hle
      have hcond : u.purchased = false ∧ u.cost ≤ s.points := ⟨hp, hle⟩
      have hbb : s.buy_upgrade i =
          ({ s with points := s.points - u.cost,
                    upgrades := s.upgrades.set i { u with purchased := true } }, true) := by
        simp [GameState.buy_upgrade, hu, hcond]
      rw [hbb]
      refine ⟨rfl, rfl, rfl, ?_⟩
      have hlen : i < s.upgrades.length := by
        rcases List.getElem?_eq_some_iff.mp hu with ⟨hl, _⟩
        exact hl
      have hget : (s.upgrades.set i { u with purchased := true })[i]? =
          some { u with purchased := true } := List.getElem?_set_self hlen
      have hn2 : ¬ (({ u with purchased := true } : Upgrade).purchased = false ∧
          ({ u with purchased := true } : Upgrade).cost ≤ s.points - u.cost) := by
        exact fun hc => (by simp at hc : False)
      simp [GameState.buy_upgrade, hget, hn2]

/-- C8 witness: buying upgrade 0 (cost 100) with exactly 100 points
succeeds, drops points to 0, and the immediate second purchase attempt
fails without changing the state. -/
theorem buy_upgrade_contract_witness :
    (upgradeWitnessState.buy_upgrade 0).2 = true ∧
    (upgradeWitnessState.buy_upgrade 0).1.points = 0 ∧
    (upgradeWitnessState.buy_upgrade 0).1.buy_upgrade 0 =
      ((upgradeWitnessState.buy_upgrade 0).1, false) := by
  have hu : upgradeWitnessState.upgrades[0]? =
      some (Upgrade.new "Necronomicon Pages" "Cultists are twice as efficient"
        100 (some ("cursor", 2.0)) none) := rfl
  have h := ((buy_upgrade_contract upgradeWitnessState 0).2 _ hu).2 rfl (by decide)
  obtain ⟨h1, h2, _h3, h4⟩ := h
  refine ⟨h1, ?_, h4⟩
  rw [h2]
  rfl

theorem inner_upgrade_foldl_eq (k : String) (l : List Upgrade) : ∀ acc : ℚ,
    l.foldl
      (fun acc u =>
        if u.purchased then
          match u.building_multiplier with
          | some km => if km.1 = k then acc * km.2 else acc
          | none => acc
        else acc) acc =
      acc * ((l.filter (targetsKey k)).map upgradeFactor).prod := by
  induction l with
  | nil => intro acc; simp
  | cons u rest ih =>
    intro acc
    by_cases hp : u.purchased = true
    · cases hbm : u.building_multiplier with
      | none =>
        simp only [List.foldl_cons, hp, if_true, hbm]
        rw [ih]
        simp [targetsKey, hp, hbm]
      | some km =>
        by_cases hk : km.1 = k
        · simp only [List.foldl_cons, hp, if_true, hbm, hk]
          rw [ih]
          simp [targetsKey, upgradeFactor, hp, hbm, hk, mul_assoc]
        · simp only [List.foldl_cons, hp, if_true, hbm, hk, if_false]
          rw [ih]
          simp [targetsKey, hp, hbm, hk]
    · simp only [List.foldl_cons, hp, if_false]
      rw [ih]
      simp [targetsKey, hp]

theorem outer_building_foldl_eq (f : (String × Building) → ℚ)
    (l : List (String × Building)) : ∀ acc : ℚ,
    l.foldl (fun total kb => total + f kb) acc = acc + (l.map f).sum := by
  induction l with
  | nil => intro acc; simp
  | cons kb rest ih =>
    intro acc
    simp only [List.foldl_cons, List.map_cons, List.sum_cons]
    rw [ih]
    ring

theorem pps_eq_ppsSpec (s : GameState) :
    s.calculate_production_per_second = ppsSpec s := by
  unfold GameState.calculate_production_per_second ppsSpec
  simp only [inner_upgrade_foldl_eq, one_mul]
  rw [outer_building_foldl_eq
    (fun kb => kb.2.total_production *
      (((s.upgrades.filter (targetsKey "all")).map upgradeFactor).prod *
        ((s.upgrades.filter (targetsKey kb.1)).map upgradeFactor).prod))]
  simp [buildingMultSpec, allMultSpec]

/-- C7: calculate_production_per_second equals the reference aggregation
(sum over buildings of total production times all-multiplier times
per-building multiplier) and is independent of the iteration order of
the buildings map and the upgrades list. -/
theorem production_per_second_reference (s s2 : GameState)
    (hb : s2.buildings.Perm s.buildings)
    (hu : s2.upgrades.Perm s.upgrades) :
    s.calculate_production_per_second = ppsSpec s ∧
    s2.calculate_production_per_second = s.calculate_production_per_second := by
  refine ⟨pps_eq_ppsSpec s, ?_⟩
  rw [pps_eq_ppsSpec, pps_eq_ppsSpec]
  unfold ppsSpec
  have hall : allMultSpec s2 = allMultSpec s := by
    unfold allMultSpec
    exact ((hu.filter (targetsKey "all")).map upgradeFactor).prod_eq
  have hmult : ∀ k, buildingMultSpec s2 k = buildingMultSpec s k := by
    intro k
    unfold buildingMultSpec
    rw [hall, ((hu.filter (targetsKey k)).map upgradeFactor).prod_eq]
  have hmap : s2.buildings.map (fun kb => kb.2.total_production * buildingMultSpec s2 kb.1) =
      s2.buildings.map (fun kb => kb.2.total_production * buildingMultSpec s kb.1) := by
    apply List.map_congr_left
    intro kb _
    rw [hmult]
  rw [hmap]
  exact (hb.map (fun kb => kb.2.total_production * buildingMultSpec s kb.1)).sum_eq

/-- C7 witness: the reference equation and order-independence applied to
the fresh catalog and its fully reversed iteration order. -/
theorem production_per_second_reference_witness :
    reversedCatalogState.buildings.Perm GameState.new.buildings ∧
    reversedCatalogState.calculate_production_per_second =
      GameState.new.calculate_production_per_second := by
  have hb : reversedCatalogState.buildings.Perm GameState.new.buildings :=
    List.reverse_perm _
  have hu : reversedCatalogState.upgrades.Perm GameState.new.upgrades :=
    List.reverse_perm _
  exact ⟨hb, (production_per_second_reference GameState.new reversedCatalogState hb hu).2⟩

theorem tick_frame (s : GameState) (t : ℚ) :
    (s.applyProductionTick t).buildings = s.buildings ∧
    (s.applyProductionTick t).upgrades = s.upgrades := by
  simp only [GameState.applyProductionTick]
  by_cases h : 0 < (Int.floor (s.production_remainder +
      s.calculate_production_per_second * t)).toNat <;> simp [h]

theorem pps_tick_invariant (s : GameState) (t : ℚ) :
    (s.applyProductionTick t).calculate_production_per_second =
      s.calculate_production_per_second := by
  unfold GameState.calculate_production_per_second
  rw [(tick_frame s t).1, (tick_frame s t).2]

theorem tick_step (s : GameState) (t : ℚ)
    (h : 0 ≤ s.production_remainder + s.calculate_production_per_second * t) :
    (s.applyProductionTick t).production_remainder =
      Int.fract (s.production_remainder + s.calculate_production_per_second * t) ∧
    ((s.applyProductionTick t).points : ℤ) =
      (s.points : ℤ) +
        Int.floor (s.production_remainder + s.calculate_production_per_second * t) ∧
    ((s.applyProductionTick t).lifetime_points : ℤ) =
      (s.lifetime_points : ℤ) +
        Int.floor (s.production_remainder + s.calculate_production_per_second * t) := by
  have hfl : 0 ≤ Int.floor (s.production_remainder +
      s.calculate_production_per_second * t) := Int.floor_nonneg.mpr h
  by_cases hpos : 0 < (Int.floor (s.production_remainder +
      s.calculate_production_per_second * t)).toNat
  · have hcast : (((Int.floor (s.production_remainder +
        s.calculate_production_per_second * t)).toNat : ℤ)) =
        Int.floor (s.production_remainder + s.calculate_production_per_second * t) :=
      Int.toNat_of_nonneg hfl
    simp only [GameState.applyProductionTick, hpos, if_true]
    refine ⟨?_, ?_, ?_⟩
    · rw [Int.fract]
      congr 1
      exact_mod_cast hcast
    · push_cast
      rw [hcast]
    · push_cast
      rw [hcast]
  · have h0 : (Int.floor (s.production_remainder +
        s.calculate_production_per_second * t)).toNat = 0 := by omega
    have hfl0 : Int.floor (s.production_remainder +
        s.calculate_production_per_second * t) = 0 := by
      have := Int.toNat_of_nonneg hfl
      omega
    simp only [GameState.applyProductionTick, hpos, if_false]
    refine ⟨?_, by simp [hfl0], by simp [hfl0]⟩
    rw [Int.fract, hfl0]
    simp

theorem ticks_accumulate (ts : List ℚ) : ∀ s : GameState,
    0 ≤ s.production_remainder → s.production_remainder < 1 →
    0 ≤ s.calculate_production_per_second → (∀ t ∈ ts, 0 ≤ t) →
    (ts.foldl GameState.applyProductionTick s).production_remainder =
      Int.fract (s.production_remainder +
        s.calculate_production_per_second * ts.sum) ∧
    ((ts.foldl GameState.applyProductionTick s).points : ℤ) =
      (s.points : ℤ) + Int.floor (s.production_remainder +
        s.calculate_production_per_second * ts.sum) ∧
    ((ts.foldl GameState.applyProductionTick s).lifetime_points : ℤ) =
      (s.lifetime_points : ℤ) + Int.floor (s.production_remainder +
        s.calculate_production_per_second * ts.sum) := by
  induction ts with
  | nil =>
    intro s h0 h1 _ _
    have hfl0 : Int.floor s.production_remainder = 0 :=
      Int.floor_eq_zero_iff.mpr ⟨h0, h1⟩
    simp only [List.foldl_nil, List.sum_nil, mul_zero, add_zero]
    rw [Int.fract, hfl0]
    simp
  | cons t rest ih =>
    intro s h0 h1 hR hts
    have hx0 : 0 ≤ s.production_remainder + s.calculate_production_per_second * t :=
      add_nonneg h0 (mul_nonneg hR (hts t (List.mem_cons_self t rest)))
    have hstep := tick_step s t hx0
    have hpps := pps_tick_invariant s t
    have hrec := ih (s.applyProductionTick t)
      (by rw [hstep.1]; exact Int.fract_nonneg _)
      (by rw [hstep.1]; exact Int.fract_lt_one _)
      (by rw [hpps]; exact hR)
      (fun t2 ht2 => hts t2 (List.mem_cons_of_mem _ ht2))
    rw [List.foldl_cons]
    have hfr : (s.applyProductionTick t).production_remainder +
        (s.applyProductionTick t).calculate_production_per_second * rest.sum =
        (s.production_remainder + s.calculate_production_per_second *
          (t :: rest).sum) -
          (Int.floor (s.production_remainder +
            s.calculate_production_per_second * t) : ℚ) := by
      rw [hstep.1, hpps, Int.fract, List.sum_cons]
      ring
    refine ⟨?_, ?_, ?_⟩
    · rw [hrec.1, hfr, Int.fract_sub_int]
    · rw [hrec.2.1, hstep.2.1, hfr, Int.floor_sub_int]
      ring
    · rw [hrec.2.2, hstep.2.2, hfr, Int.floor_sub_int]
      ring

/-- C1: splitting one production tick of total duration T into any
sequence of shorter ticks adds exactly the same whole points to points
and lifetime_points and leaves the same fractional remainder, the
fraction being carried in production_remainder between ticks. -/
theorem production_tick_splitting (s : GameState) (ts : List ℚ)
    (h0 : 0 ≤ s.production_remainder) (h1 : s.production_remainder < 1)
    (hR : 0 ≤ s.calculate_production_per_second)
    (hts : ∀ t ∈ ts, 0 ≤ t) :
    (ts.foldl GameState.applyProductionTick s).points =
      (s.applyProductionTick ts.sum).points ∧
    (ts.foldl GameState.applyProductionTick s).lifetime_points =
      (s.applyProductionTick ts.sum).lifetime_points ∧
    (ts.foldl GameState.applyProductionTick s).production_remainder =
      (s.applyProductionTick ts.sum).production_remainder := by
  have hmulti := ticks_accumulate ts s h0 h1 hR hts
  have hsingle := ticks_accumulate [ts.sum] s h0 h1 hR (by
    intro t ht
    simp only [List.mem_singleton] at ht
    rw [ht]
    exact List.sum_nonneg hts)
  simp only [List.foldl_cons, List.foldl_nil, List.sum_cons, List.sum_nil,
    add_zero] at hsingle
  refine ⟨?_, ?_, ?_⟩
  · have := hmulti.2.1.trans hsingle.2.1.symm
    exact_mod_cast this
  · have := hmulti.2.2.trans hsingle.2.2.symm
    exact_mod_cast this
  · exact hmulti.1.trans hsingle.1.symm

theorem tickWitnessState_pps :
    tickWitnessState.calculate_production_per_second = 1 := by
  simp [tickWitnessState, oneCultist, GameState.calculate_production_per_second,
    Building.total_production]

/-- C1 witness: three half-second ticks at production rate 1 from a fresh
remainder add the same points as one single tick of 1.5 seconds. -/
theorem production_tick_splitting_witness :
    (([1/2, 1/2, 1/2] : List ℚ).foldl GameState.applyProductionTick
        tickWitnessState).points =
      (tickWitnessState.applyProductionTick
        ([1/2, 1/2, 1/2] : List ℚ).sum).points := by
  refine (production_tick_splitting tickWitnessState [1/2, 1/2, 1/2] ?_ ?_ ?_ ?_).1
  · norm_num [tickWitnessState]
  · norm_num [tickWitnessState]
  · rw [tickWitnessState_pps]
    norm_num
  · intro t ht
    simp only [List.mem_cons, List.not_mem_nil, or_false] at ht
    rcases ht with h | h | h <;> rw [h] <;> norm_num

theorem foldl_buildingLines (bs : List (String × Building)) : ∀ st : GameState,
    (buildingLines bs).foldl applyLine st =
      { st with buildings := applyCounts st.buildings bs } := by
  induction bs with
  | nil => intro st; rfl
  | cons kb rest ih =>
    intro st
    simp only [buildingLines, List.foldl_cons, applyLine]
    rw [ih]
    rfl

theorem foldl_upgradeLines (us : List Upgrade) : ∀ (n : Nat) (st : GameState),
    (upgradeLines n us).foldl applyLine st =
      { st with upgrades := applyFlags st.upgrades n us } := by
  induction us with
  | nil => intro n st; rfl
  | cons u rest ih =>
    intro n st
    simp only [upgradeLines, List.foldl_cons, applyLine]
    by_cases h : n < st.upgrades.length
    · simp only [h, if_true]
      rw [ih]
      simp [applyFlags, h]
    · simp only [h, if_false]
      rw [ih]
      simp [applyFlags, h]

theorem updateB_not_mem (l : List (String × Building)) (key : String)
    (f : Building → Building) (h : key ∉ l.map Prod.fst) :
    updateB l key f = l := by
  induction l with
  | nil => rfl
  | cons kb rest ih =>
    simp only [List.map_cons, List.mem_cons, not_or] at h
    obtain ⟨h1, h2⟩ := h
    simp only [updateB]
    rw [if_neg (fun hh => h1 hh.symm), ih h2]

theorem applyCounts_skip (src : List (String × Building)) :
    ∀ (hd : String × Building) (tgt : List (String × Building)),
    hd.1 ∉ src.map Prod.fst →
    applyCounts (hd :: tgt) src = hd :: applyCounts tgt src := by
  induction src with
  | nil => intro hd tgt _; rfl
  | cons kb rest ih =>
    intro hd tgt hmem
    simp only [List.map_cons, List.mem_cons, not_or] at hmem
    obtain ⟨h1, h2⟩ := hmem
    simp only [applyCounts, updateB]
    rw [if_neg h1]
    exact ih _ _ h2

theorem applyCounts_counts (src : List (String × Building)) :
    ∀ tgt : List (String × Building),
    tgt.map Prod.fst = src.map Prod.fst →
    (src.map Prod.fst).Nodup →
    (applyCounts tgt src).map (fun kb => (kb.1, kb.2.count)) =
      src.map (fun kb => (kb.1, kb.2.count)) := by
  induction src with
  | nil =>
    intro tgt h _
    have : tgt = [] := List.map_eq_nil.mp h
    rw [this]
    rfl
  | cons kb rest ih =>
    intro tgt hkeys hnodup
    cases tgt with
    | nil => simp at hkeys
    | cons tb ttail =>
      simp only [List.map_cons, List.cons.injEq] at hkeys
      obtain ⟨hk1, hkrest⟩ := hkeys
      simp only [List.map_cons, List.nodup_cons] at hnodup
      obtain ⟨hnotmem, hnodup2⟩ := hnodup
      simp only [applyCounts, updateB, if_pos hk1]
      rw [updateB_not_mem ttail kb.1 _ (by rw [hkrest]; exact hnotmem)]
      rw [applyCounts_skip rest (tb.1, { tb.2 with count := kb.2.count }) ttail
        (by simpa [hk1] using hnotmem)]
      simp only [List.map_cons]
      rw [ih ttail hkrest hnodup2]
      simp [hk1]

theorem setPurchased_append (acc : List Upgrade) : ∀ (w : Upgrade)
    (tl : List Upgrade) (p : Bool),
    setPurchased (acc ++ w :: tl) acc.length p =
      acc ++ ({ w with purchased := p } :: tl) := by
  induction acc with
  | nil => intro w tl p; rfl
  | cons a rest ih =>
    intro w tl p
    simp only [List.cons_append, List.length_cons, setPurchased]
    exact congrArg (List.cons a) (ih w tl p)

theorem applyFlags_spec (src : List Upgrade) : ∀ (acc tgt : List Upgrade),
    tgt.length = src.length →
    applyFlags (acc ++ tgt) acc.length src = acc ++ zipFlags src tgt := by
  induction src with
  | nil =>
    intro acc tgt hlen
    have : tgt = [] := List.length_eq_zero.mp hlen
    rw [this]
    simp [applyFlags, zipFlags]
  | cons u rest ih =>
    intro acc tgt hlen
    cases tgt with
    | nil => simp at hlen
    | cons v ttail =>
      simp only [List.length_cons] at hlen
      have hlen2 : ttail.length = rest.length := by omega
      have hlt : acc.length < (acc ++ v :: ttail).length := by simp
      simp only [applyFlags, hlt, if_true]
      rw [setPurchased_append]
      have hsplit : acc ++ ({ v with purchased := u.purchased } :: ttail) =
          (acc ++ [{ v with purchased := u.purchased }]) ++ ttail := by simp
      have hlenacc : acc.length + 1 =
          (acc ++ [{ v with purchased := u.purchased }]).length := by simp
      rw [hsplit, hlenacc, ih _ ttail hlen2]
      simp [zipFlags]

theorem zipFlags_purchased (src : List Upgrade) : ∀ tgt : List Upgrade,
    tgt.length = src.length →
    (zipFlags src tgt).map (fun u => u.purchased) =
      src.map (fun u => u.purchased) := by
  induction src with
  | nil => intro tgt _; simp [zipFlags]
  | cons u rest ih =>
    intro tgt hlen
    cases tgt with
    | nil => simp at hlen
    | cons v ttail =>
      simp only [List.length_cons] at hlen
      simp only [zipFlags, List.map_cons]
      rw [ih ttail (by omega)]

/-- C2: loading the save of a state into a state with the same building
keys and upgrade count reproduces points, lifetime_points, every
building's count and every upgrade's purchased flag exactly, yields a
click_power at least the original's, and resets production_remainder
to 0. -/
theorem save_load_round_trip (s s0 : GameState)
    (hkeys : s0.buildings.map Prod.fst = s.buildings.map Prod.fst)
    (hnodup : (s.buildings.map Prod.fst).Nodup)
    (hlen : s0.upgrades.length = s.upgrades.length) :
    (s0.load_game s.save_game).points = s.points ∧
    (s0.load_game s.save_game).lifetime_points = s.lifetime_points ∧
    (s0.load_game s.save_game).buildings.map (fun kb => (kb.1, kb.2.count)) =
      s.buildings.map (fun kb => (kb.1, kb.2.count)) ∧
    (s0.load_game s.save_game).upgrades.map (fun u => u.purchased) =
      s.upgrades.map (fun u => u.purchased) ∧
    s.click_power ≤ (s0.load_game s.save_game).click_power ∧
    (s0.load_game s.save_game).production_remainder = 0 := by
  have hflags := applyFlags_spec s.upgrades [] s0.upgrades hlen
  simp only [List.nil_append, List.length_nil] at hflags
  have hst : s0.load_game s.save_game =
      GameState.check_click_power_upgrade
        { points := s.points, lifetime_points := s.lifetime_points,
          click_power := s.click_power,
          buildings := applyCounts s0.buildings s.buildings,
          upgrades := applyFlags s0.upgrades 0 s.upgrades,
          current_menu := s0.current_menu, selected_index := s0.selected_index,
          production_remainder := 0 } := by
    unfold GameState.load_game GameState.save_game
    rw [List.foldl_cons, List.foldl_cons, List.foldl_cons, List.foldl_append]
    rw [foldl_buildingLines, foldl_upgradeLines]
    rfl
  rw [hst]
  refine ⟨?_, ?_, ?_, ?_, ?_, ?_⟩
  · rw [(check_click_power_fields _).1]
  · rw [(check_click_power_fields _).2.1]
  · rw [(check_click_power_fields _).2.2.1]
    exact applyCounts_counts s.buildings s0.buildings hkeys hnodup
  · rw [(check_click_power_fields _).2.2.2.1]
    show (applyFlags s0.upgrades 0 s.upgrades).map (fun u => u.purchased) = _
    rw [hflags]
    exact zipFlags_purchased s.upgrades s0.upgrades hlen
  · exact (check_click_power_fields
      { points := s.points, lifetime_points := s.lifetime_points,
        click_power := s.click_power,
        buildings := applyCounts s0.buildings s.buildings,
        upgrades := applyFlags s0.upgrades 0 s.upgrades,
        current_menu := s0.current_menu, selected_index := s0.selected_index,
        production_remainder := 0 }).2.2.2.2.2.2.2
  · rw [(check_click_power_fields _).2.2.2.2.2.2.1]

/-- C2 witness: the round trip applied with the fresh catalog as the
loading state and a played state (7 points, 4242 lifetime, cursor count
3, first upgrade purchased) as the saved state. -/
theorem save_load_round_trip_witness :
    (GameState.new.load_game roundTripState.save_game).points = 7 ∧
    (GameState.new.load_game roundTripState.save_game).upgrades.map
      (fun u => u.purchased) = [true, false, false, false, false, false, false] := by
  have h := save_load_round_trip roundTripState GameState.new rfl (by decide) rfl
  refine ⟨h.1.trans rfl, h.2.2.2.1.trans ?_⟩
  rfl

theorem load_points_lifetime (s0 src : GameState) :
    (s0.load_game src.save_game).points = src.points ∧
    (s0.load_game src.save_game).lifetime_points = src.lifetime_points := by
  unfold GameState.load_game GameState.save_game
  rw [List.foldl_cons, List.foldl_cons, List.foldl_cons, List.foldl_append]
  rw [foldl_buildingLines, foldl_upgradeLines]
  exact ⟨(check_click_power_fields _).1, (check_click_power_fields _).2.1⟩

/-- C4 (amended): the invariant points ≤ lifetime_points is preserved by
click, the production tick, buy_building and buy_upgrade, and by
load_game on any file produced by save_game from a state satisfying the
invariant; load_game on arbitrary file content can violate it. -/
theorem invariant_points_le_lifetime (s : GameState)
    (h : s.points ≤ s.lifetime_points) :
    s.click.points ≤ s.click.lifetime_points ∧
    (∀ t : ℚ, (s.applyProductionTick t).points ≤
      (s.applyProductionTick t).lifetime_points) ∧
    (∀ k : String, (s.buy_building k).1.points ≤
      (s.buy_building k).1.lifetime_points) ∧
    (∀ i : Nat, (s.buy_upgrade i).1.points ≤
      (s.buy_upgrade i).1.lifetime_points) ∧
    (∀ src : GameState, src.points ≤ src.lifetime_points →
      (s.load_game src.save_game).points ≤
        (s.load_game src.save_game).lifetime_points) := by
  refine ⟨?_, ?_, ?_, ?_, ?_⟩
  · simp only [GameState.click]
    rw [(check_click_power_fields _).1, (check_click_power_fields _).2.1]
    exact Nat.add_le_add_right h _
  · intro t
    simp only [GameState.applyProductionTick]
    by_cases hc : 0 < (Int.floor (s.production_remainder +
        s.calculate_production_per_second * t)).toNat <;> simp [hc] <;> omega
  · intro k
    cases hl : lookupB s.buildings k
    · simp [GameState.buy_building, hl, h]
    · rename_i b
      by_cases hc : b.current_cost ≤ s.points <;>
        simp [GameState.buy_building, hl, hc, h] <;> omega
  · intro i
    cases hl : s.upgrades[i]?
    · simp [GameState.buy_upgrade, hl, h]
    · rename_i u
      by_cases hc : u.purchased = false ∧ u.cost ≤ s.points <;>
        simp [GameState.buy_upgrade, hl, hc, h] <;> omega
  · intro src hsrc
    rw [(load_points_lifetime s src).1, (load_points_lifetime s src).2]
    exact hsrc

/-- C4 witness: the preservation theorem applied at a concrete state
satisfying the invariant, for click and for loading a saved file. -/
theorem invariant_points_le_lifetime_witness :
    tickCounterState.points ≤ tickCounterState.lifetime_points ∧
    tickCounterState.click.points ≤ tickCounterState.click.lifetime_points ∧
    (tickCounterState.load_game tickWitnessState.save_game).points ≤
      (tickCounterState.load_game tickWitnessState.save_game).lifetime_points := by
  have h0 : tickCounterState.points ≤ tickCounterState.lifetime_points := by decide
  have h := invariant_points_le_lifetime tickCounterState h0
  exact ⟨h0, h.1, h.2.2.2.2 tickWitnessState (by decide)⟩

/-- C4 (counterexample): load_game on a file that sets points to 100
without a lifetime record leaves points = 100 above lifetime_points = 0,
violating the invariant — the loader parses the two fields independently
and never cross-checks them. -/
theorem load_game_breaks_invariant_counterexample :
    (GameState.new.load_game [SaveLine.points 100]).points = 100 ∧
    (GameState.new.load_game [SaveLine.points 100]).lifetime_points = 0 ∧
    ¬ ((GameState.new.load_game [SaveLine.points 100]).points ≤
        (GameState.new.load_game [SaveLine.points 100]).lifetime_points) := by
  have h1 : (GameState.new.load_game [SaveLine.points 100]).points = 100 := rfl
  have h2 : (GameState.new.load_game [SaveLine.points 100]).lifetime_points = 0 := rfl
  refine ⟨h1, h2, ?_⟩
  rw [h1, h2]
  decide

theorem insertByCost_perm (x : String × Nat) (l : List (String × Nat)) :
    (insertByCost x l).Perm (x :: l) := by
  induction l with
  | nil => exact List.Perm.refl _
  | cons y rest ih =>
    by_cases h : x.2 ≤ y.2
    · simp [insertByCost, h]
    · simp only [insertByCost, h, if_false]
      exact (ih.cons y).trans (List.Perm.swap x y rest)

theorem sortByCost_perm (l : List (String × Nat)) : (sortByCost l).Perm l := by
  induction l with
  | nil => exact List.Perm.refl _
  | cons x rest ih =>
    exact (insertByCost_perm x (sortByCost rest)).trans (ih.cons x)

theorem insertByCost_sorted (x : String × Nat) (l : List (String × Nat))
    (h : l.Sorted (fun a b : String × Nat => a.2 ≤ b.2)) :
    (insertByCost x l).Sorted (fun a b : String × Nat => a.2 ≤ b.2) := by
  induction l with
  | nil => simp [insertByCost]
  | cons y rest ih =>
    rw [List.sorted_cons] at h
    obtain ⟨hy, hrest⟩ := h
    by_cases hxy : x.2 ≤ y.2
    · simp only [insertByCost, hxy, if_true]
      rw [List.sorted_cons]
      refine ⟨?_, ?_⟩
      · intro b hb
        rcases List.mem_cons.mp hb with hb | hb
        · rw [hb]; exact hxy
        · exact le_trans hxy (hy b hb)
      · rw [List.sorted_cons]
        exact ⟨hy, hrest⟩
    · simp only [insertByCost, hxy, if_false]
      rw [List.sorted_cons]
      refine ⟨?_, ih hrest⟩
      intro b hb
      have hmem := (insertByCost_perm x rest).mem_iff.mp hb
      rcases List.mem_cons.mp hmem with hb2 | hb2
      · rw [hb2]
        exact Nat.le_of_lt (Nat.lt_of_not_le hxy)
      · exact hy b hb2

theorem sortByCost_sorted (l : List (String × Nat)) :
    (sortByCost l).Sorted (fun a b : String × Nat => a.2 ≤ b.2) := by
  induction l with
  | nil => simp [sortByCost]
  | cons x rest ih => exact insertByCost_sorted x (sortByCost rest) ih

theorem sorted_strict_of_nodup (l : List (String × Nat))
    (hs : l.Sorted (fun a b : String × Nat => a.2 ≤ b.2))
    (hn : (l.map Prod.snd).Nodup) :
    l.Sorted (fun a b : String × Nat => a.2 < b.2) := by
  have hne : l.Pairwise (fun a b : String × Nat => a.2 ≠ b.2) :=
    List.pairwise_map.mp hn
  exact (hs.and hne).imp fun h => Nat.lt_of_le_of_ne h.1 h.2

theorem sortByCost_eq_of_perm (l1 l2 : List (String × Nat))
    (hp : l1.Perm l2) (hnd : (l2.map Prod.snd).Nodup) :
    sortByCost l1 = sortByCost l2 := by
  haveI : IsAntisymm (String × Nat) (fun a b : String × Nat => a.2 < b.2) :=
    ⟨fun a b h1 h2 => absurd h2 (Nat.lt_asymm h1)⟩
  have hperm : (sortByCost l1).Perm (sortByCost l2) :=
    (sortByCost_perm l1).trans (hp.trans (sortByCost_perm l2).symm)
  have hnd1 : ((sortByCost l1).map Prod.snd).Nodup :=
    (((sortByCost_perm l1).trans hp).map Prod.snd).nodup_iff.mpr hnd
  have hnd2 : ((sortByCost l2).map Prod.snd).Nodup :=
    ((sortByCost_perm l2).map Prod.snd).nodup_iff.mpr hnd
  exact List.eq_of_perm_of_sorted hperm
    (sorted_strict_of_nodup _ (sortByCost_sorted l1) hnd1)
    (sorted_strict_of_nodup _ (sortByCost_sorted l2) hnd2)

/-- C9 (amended): in the Buildings menu activateSelection resolves the
selected index against buildings sorted ascending by current cost with
ties kept in map-iteration order (no key tie-break); when the current
costs are pairwise distinct the resulting order, hence the building
bought, does not depend on the map's iteration order; in the Upgrades
menu it buys the upgrade at the selected index in catalog order and in
the Main menu it is a no-op. -/
theorem activate_selection_deterministic (s s2 : GameState)
    (hperm : s2.buildings.Perm s.buildings)
    (hnd : (s.buildings.map (fun kb => kb.2.current_cost)).Nodup) :
    s2.sortedBuildingEntries = s.sortedBuildingEntries ∧
    (s.current_menu = Menu.main → s.activateSelection = s) ∧
    (s.current_menu = Menu.upgrades →
      s.activateSelection = (s.buy_upgrade s.selected_index).1) := by
  refine ⟨?_, ?_, ?_⟩
  · have hmap : (s.buildingEntries.map Prod.snd) =
        s.buildings.map (fun kb => kb.2.current_cost) := by
      simp [GameState.buildingEntries, List.map_map, Function.comp]
    exact sortByCost_eq_of_perm s2.buildingEntries s.buildingEntries
      (hperm.map _) (by rw [hmap]; exact hnd)
  · intro h
    simp [GameState.activateSelection, h]
  · intro h
    simp [GameState.activateSelection, h]

/-- C9 witness: determinism of the cost-sorted order applied to the
fresh catalog (pairwise-distinct costs) against its reversed iteration
order. -/
theorem activate_selection_deterministic_witness :
    reversedCatalogState.sortedBuildingEntries =
      GameState.new.sortedBuildingEntries := by
  refine (activate_selection_deterministic GameState.new reversedCatalogState
    (List.reverse_perm _) ?_).1
  decide

/-- C9 (counterexample): with two buildings of equal current cost the
selection order is not tie-broken by key — it follows map-iteration
order, so two states equal up to iteration order buy different
buildings: the claim's determinism fails at ties. -/
theorem activate_selection_tie_counterexample :
    tieStatePerm.buildings.Perm tieState.buildings ∧
    tieStatePerm.points = tieState.points ∧
    tieStatePerm.current_menu = tieState.current_menu ∧
    tieStatePerm.selected_index = tieState.selected_index ∧
    tieState.sortedBuildingEntries[0]? = some ("b", 10) ∧
    tieStatePerm.sortedBuildingEntries[0]? = some ("a", 10) ∧
    lookupB tieState.activateSelection.buildings "b" ≠
      lookupB tieStatePerm.activateSelection.buildings "b" := by
  refine ⟨List.Perm.swap _ _ _, rfl, rfl, rfl, rfl, rfl, ?_⟩
  intro h
  simp [tieState, tieStatePerm, tieBuildingA, tieBuildingB,
    GameState.activateSelection, GameState.sortedBuildingEntries,
    GameState.buildingEntries, sortByCost, insertByCost,
    GameState.buy_building, lookupB, updateB, Building.buy,
    Building.current_cost] at h
